import Mathlib

/-!
Verification development for the Willowdale copyover engine.

Shallow embedding of the copyover subsystem: the phase state machine
(`internal/copyover/states.go`), the manager's guarded state transition and
progress tracking (`internal/copyover/manager.go`), the module registry
fan-out (`internal/copyover/module.go`), the package initialisation of the
simplified manager, the connection/listener gatherers
(`internal/copyover/connections.go`), the economy shop snapshot/restore
(`internal/economy`), the event-queue gather (`internal/events/copyover.go`)
and the operator countdown command (`internal/usercommands`).

Go `int` is embedded as `Int` (with `Int.tdiv` for Go's truncated division),
Go maps as association lists with overwrite-on-insert, fallible operations
as `Option`/explicit error components, and mutation as explicit state
passing.
-/

namespace Willowdale

/-- CopyoverPhase from `internal/copyover/states.go`: the ten phases of the
copyover state machine. -/
inductive CopyoverPhase
  | StateIdle
  | StateScheduled
  | StateAnnouncing
  | StateBuilding
  | StateSaving
  | StateGathering
  | StateExecuting
  | StateRecovering
  | StateCancelling
  | StateFailed
  deriving DecidableEq, Fintype, Repr

open CopyoverPhase

/-- Embedding of the `validTransitions` map literal inside
`CopyoverPhase.CanTransitionTo` (states.go lines 64-105). Every phase is a
key of the map, so the `exists` lookup in the source never fails. -/
def validTransitions : CopyoverPhase → List CopyoverPhase
  | StateIdle => [StateScheduled, StateBuilding, StateRecovering]
  | StateScheduled => [StateAnnouncing, StateCancelling]
  | StateAnnouncing => [StateBuilding, StateCancelling]
  | StateBuilding => [StateSaving, StateFailed, StateCancelling]
  | StateSaving => [StateGathering, StateFailed]
  | StateGathering => [StateExecuting, StateFailed]
  | StateExecuting => [StateRecovering, StateFailed]
  | StateRecovering => [StateIdle, StateFailed]
  | StateCancelling => [StateIdle]
  | StateFailed => [StateIdle]

/-- `CopyoverPhase.CanTransitionTo` (states.go lines 63-118): the linear scan
over the allowed-target list. -/
def CopyoverPhase.CanTransitionTo (s target : CopyoverPhase) : Bool :=
  (validTransitions s).contains target

/-- `CopyoverPhase.IsTerminal` (states.go line 121). -/
def CopyoverPhase.IsTerminal (s : CopyoverPhase) : Bool :=
  s = StateIdle || s = StateFailed

/-- `CopyoverPhase.IsActive` (states.go line 126). -/
def CopyoverPhase.IsActive (s : CopyoverPhase) : Bool :=
  s != StateIdle && s != StateFailed

/-- The transition graph exactly as the specification's section 4.4 lists it,
written independently of `validTransitions` as a plain edge list, for the
refinement comparison of claim C1. -/
def specTransitionEdges : List (CopyoverPhase × CopyoverPhase) :=
  [(StateIdle, StateScheduled), (StateIdle, StateBuilding), (StateIdle, StateRecovering),
   (StateScheduled, StateAnnouncing), (StateScheduled, StateCancelling),
   (StateAnnouncing, StateBuilding), (StateAnnouncing, StateCancelling),
   (StateBuilding, StateSaving), (StateBuilding, StateFailed), (StateBuilding, StateCancelling),
   (StateSaving, StateGathering), (StateSaving, StateFailed),
   (StateGathering, StateExecuting), (StateGathering, StateFailed),
   (StateExecuting, StateRecovering), (StateExecuting, StateFailed),
   (StateRecovering, StateIdle), (StateRecovering, StateFailed),
   (StateCancelling, StateIdle),
   (StateFailed, StateIdle)]

/-- VetoInfo (states.go lines 164-169). Wall-clock timestamps are embedded as
abstract `Nat` instants. The source field `Type` is renamed `vetoType`
because `Type` is a Lean keyword. -/
structure VetoInfo where
  Module : String
  Reason : String
  vetoType : String
  Timestamp : Nat
  deriving DecidableEq, Repr

/-- CopyoverStatus (states.go lines 131-161), restricted to the fields the
phase/progress logic reads and writes. -/
structure CopyoverStatus where
  State : CopyoverPhase
  BuildProgress : Int
  SaveProgress : Int
  GatherProgress : Int
  RestoreProgress : Int
  VetoReasons : List VetoInfo
  deriving DecidableEq, Repr

/-- `CopyoverStatus.GetProgress` (states.go lines 203-223). Go's integer
division truncates toward zero, hence `Int.tdiv`. -/
def CopyoverStatus.GetProgress (s : CopyoverStatus) : Int :=
  match s.State with
  | StateIdle | StateScheduled | StateAnnouncing => 0
  | StateBuilding => Int.tdiv s.BuildProgress 4
  | StateSaving => 25 + Int.tdiv s.SaveProgress 4
  | StateGathering => 50 + Int.tdiv s.GatherProgress 4
  | StateExecuting => 75
  | StateRecovering => 75 + Int.tdiv s.RestoreProgress 4
  | StateFailed | StateCancelling => 0

/-- `CopyoverStatus.CanCopyover` (states.go lines 172-188): collect refusal
reasons (active phase, hard vetoes) and report readiness. -/
def CopyoverStatus.CanCopyover (s : CopyoverStatus) : Bool × List String :=
  let reasons : List String :=
    (if s.State.IsActive then ["Copyover already in progress"] else []) ++
      (s.VetoReasons.filter (fun v => v.vetoType = "hard")).map
        (fun v => v.Module ++ ": " ++ v.Reason)
  (reasons.length = 0, reasons)

/-- Go map write `m[k] = v` on a `map[string]int`, embedded on an association
list: remove any binding of the key, append the new one. -/
def goStringMapSet (m : List (String × Int)) (k : String) (v : Int) :
    List (String × Int) :=
  (m.filter (fun p => p.1 ≠ k)) ++ [(k, v)]

/-- ManagerState: the fields of `Manager` (manager.go lines 32-69) that the
state machine methods `changeState` and `updateProgress` touch. -/
structure ManagerState where
  currentState : CopyoverPhase
  status : CopyoverStatus
  progress : List (String × Int)
  inProgress : Bool
  deriving DecidableEq, Repr

/-- `Manager.changeState` (manager.go lines 735-774): validate the transition
against `CanTransitionTo`; on an invalid target return an error and leave the
manager untouched, otherwise install the new phase, mirror it into the
status, and zero the progress slot of the entered phase. The mutation of the
receiver is embedded as returning the updated state plus an optional error. -/
def changeState (m : ManagerState) (newState : CopyoverPhase) :
    ManagerState × Option String :=
  if ¬ m.currentState.CanTransitionTo newState then
    (m, some "invalid state transition")
  else
    let m1 := { m with
      currentState := newState,
      status := { m.status with State := newState } }
    let m2 :=
      match newState with
      | StateBuilding => { m1 with progress := goStringMapSet m1.progress "build" 0 }
      | StateSaving => { m1 with progress := goStringMapSet m1.progress "save" 0 }
      | StateGathering => { m1 with progress := goStringMapSet m1.progress "gather" 0 }
      | StateRecovering => { m1 with progress := goStringMapSet m1.progress "restore" 0 }
      | _ => m1
    (m2, none)

/-- The clamp at the top of `Manager.updateProgress` (manager.go lines
781-785): progress is forced into the range 0-100. -/
def clampProgress (p : Int) : Int :=
  if p < 0 then 0 else if p > 100 then 100 else p

/-- `Manager.updateProgress` (manager.go lines 777-809): clamp, record in the
progress map, and mirror into the status field selected by the current
phase. -/
def updateProgress (m : ManagerState) (phase : String) (p : Int) : ManagerState :=
  let q := clampProgress p
  let m1 := { m with progress := goStringMapSet m.progress phase q }
  match m1.currentState with
  | StateBuilding => { m1 with status := { m1.status with BuildProgress := q } }
  | StateSaving => { m1 with status := { m1.status with SaveProgress := q } }
  | StateGathering => { m1 with status := { m1.status with GatherProgress := q } }
  | StateRecovering => { m1 with status := { m1.status with RestoreProgress := q } }
  | _ => m1

/-- One registered module as `CheckModuleVetoes` observes it
(`internal/copyover/module.go`): its registry name and the pair returned by
its `CanCopyover` callback. -/
structure ModuleReadiness where
  name : String
  ready : Bool
  veto : VetoInfo
  deriving DecidableEq, Repr

/-- The stamping done on a collected veto inside the `CheckModuleVetoes` loop
(module.go lines 98-104): fill in the registry name when the module left its
`Module` field empty and set the timestamp. -/
def stampVeto (now : Nat) (mp : ModuleReadiness) : VetoInfo :=
  let v1 := if mp.veto.Module = "" then { mp.veto with Module := mp.name } else mp.veto
  { v1 with Timestamp := now }

/-- `CheckModuleVetoes` (module.go lines 90-114): walk the registered modules
(the Go map iteration is embedded as a list), collect a stamped veto from
every module whose `CanCopyover` reports not-ready, and drop readiness as
soon as a collected veto is hard. -/
def CheckModuleVetoes (now : Nat) (participants : List ModuleReadiness) :
    Bool × List VetoInfo :=
  participants.foldl
    (fun acc mp =>
      if mp.ready then acc
      else
        let v := stampVeto now mp
        ((if v.vetoType = "hard" then false else acc.1), acc.2 ++ [v]))
    (true, [])

/-- The guarded prefix of `Manager.InitiateCopyover` (manager.go lines
198-211): the `CanCopyover` precondition check and the module veto check. A
refusal returns an error with the manager's phase untouched (vetoes are
appended to the status on the module-veto path, exactly as the source does);
passing both guards proceeds to the in-progress section of the function
(everything from line 213 on is process orchestration outside this
embedding). -/
def initiateCopyoverGate (m : ManagerState) (now : Nat)
    (participants : List ModuleReadiness) : ManagerState × Option String :=
  let canStart := (m.status.CanCopyover).1
  if ¬ canStart then
    (m, some "cannot initiate copyover")
  else
    let check := CheckModuleVetoes now participants
    if ¬ check.1 then
      ({ m with status :=
          { m.status with VetoReasons := m.status.VetoReasons ++ check.2 } },
        some "cannot initiate copyover: modules not ready")
    else
      ({ m with inProgress := true }, none)

/-- One registered module as `RestoreModuleStates` observes it (module.go
lines 142-164): whether the registry holds gathered state for it, and the
outcome of its `RestoreState` callback when invoked (`none` = success). -/
structure ModuleRestore where
  name : String
  hasState : Bool
  restoreErr : Option String
  deriving DecidableEq, Repr

/-- `RestoreModuleStates` (module.go lines 142-164): skip modules without
gathered state, invoke `RestoreState` on the rest, keep the first error,
continue past failures. Besides the returned first error the embedding also
returns the trace of invoked module names, so that the continuation
behaviour is visible. -/
def RestoreModuleStates (mods : List ModuleRestore) :
    Option String × List String :=
  mods.foldl
    (fun acc md =>
      if ¬ md.hasState then acc
      else
        let invoked := acc.2 ++ [md.name]
        match md.restoreErr with
        | some e => ((if acc.1 = none then some e else acc.1), invoked)
        | none => (acc.1, invoked))
    (none, [])

/-- The two snapshot paths `Manager.saveState` can touch (manager.go lines
503-517): the well-known `copyover.dat` and its sibling `copyover.dat.tmp`.
Each slot holds the byte string currently stored there, if any. -/
structure SnapshotFiles where
  mainFile : Option String
  tempFile : Option String
  deriving DecidableEq, Repr

/-- `Manager.saveState` (manager.go lines 503-517): serialize, write the full
byte string to the sibling temporary path, rename over the well-known path.
Serialization is embedded as its result (`none` = `json.MarshalIndent`
failed); a failing `os.WriteFile` (`writeOk = false`) may leave arbitrary
partial bytes at the temporary path (`partialData`) but never touches the
main path; `os.Rename` atomically moves the temporary file over the main
path. -/
def saveState (marshalResult : Option String) (writeOk : Bool)
    (partialData : Option String) (fs : SnapshotFiles) :
    SnapshotFiles × Option String :=
  match marshalResult with
  | none => (fs, some "marshal error")
  | some data =>
    if ¬ writeOk then
      ({ fs with tempFile := partialData }, some "write error")
    else
      let fs1 := { fs with tempFile := some data }
      ({ fs1 with mainFile := fs1.tempFile, tempFile := none }, none)

/-- The five phases of the simplified manager variant (the `CopyoverState`
enum of the current `package copyover` manager, the file carrying the
`Simplified state machine` comment). -/
inductive CopyoverStateSimple
  | StateIdle
  | StateScheduled
  | StatePreparing
  | StateExecuting
  | StateRecovering
  deriving DecidableEq, Fintype, Repr

/-- The package `init` of the simplified manager (lines 93-109 of that file):
with the `GOMUD_COPYOVER` environment variable set to "1" the manager starts
in `StateRecovering`; otherwise a present `copyover.dat` is a stale artifact
and is removed, and the manager starts in `StateIdle`. `envValue` is what
`os.Getenv` returns (the empty string when the variable is absent);
`dataFileExists` is `fileExists(CopyoverDataFile)`. The result is the
initial manager state paired with whether the data file still exists
afterwards. -/
def managerInitState (envValue : String) (dataFileExists : Bool) :
    CopyoverStateSimple × Bool :=
  if envValue = "1" then
    (CopyoverStateSimple.StateRecovering, dataFileExists)
  else if dataFileExists then
    (CopyoverStateSimple.StateIdle, false)
  else
    (CopyoverStateSimple.StateIdle, dataFileExists)

/-- Outcome of the countdown branch of the `Copyover` operator command. -/
inductive CountdownOutcome
  | invalid
  | tooLarge
  | initiate (seconds : Int)
  deriving DecidableEq, Repr

/-- The `default` branch of the `Copyover` operator command (both command
variants carry the identical logic): `strconv.Atoi` of the argument is
embedded as its result (`none` = parse error). Parse errors and negative
values are rejected as invalid, values above 300 are rejected with the
maximum reported, zero becomes the default ten, and anything else initiates
with that countdown. -/
def copyoverCountdownArg (parsed : Option Int) : CountdownOutcome :=
  match parsed with
  | none => CountdownOutcome.invalid
  | some countdown =>
    if countdown < 0 then CountdownOutcome.invalid
    else if countdown > 300 then CountdownOutcome.tooLarge
    else if countdown = 0 then CountdownOutcome.initiate 10
    else CountdownOutcome.initiate countdown

/-- ShopItem, restricted to the two fields the economy copyover code reads
and writes (`characters.ShopItem` itself lives outside the copyover
sources). -/
structure ShopItem where
  ItemId : Int
  Quantity : Int
  deriving DecidableEq, Repr

/-- Go map write `m[k] = v` on a `map[int]int`, embedded on an association
list: remove any binding of the key, append the new one. -/
def goIntMapSet (m : List (Int × Int)) (k v : Int) : List (Int × Int) :=
  (m.filter (fun p => p.1 ≠ k)) ++ [(k, v)]

/-- Go map read `m[k]` with its `exists` flag, embedded as an `Option`. -/
def goIntMapGet (m : List (Int × Int)) (k : Int) : Option Int :=
  (m.find? (fun p => p.1 = k)).map (fun p => p.2)

/-- `copyShopItems` (`internal/economy`): a fresh slice holding the same
item values. -/
def copyShopItems (items : List ShopItem) : List ShopItem :=
  items

/-- The `savedMap` built at the top of `restoreShopQuantities`
(`internal/economy`): ItemId to Quantity for every saved item with a
positive id, later bindings overwriting earlier ones. -/
def savedQuantityMap (saved : List ShopItem) : List (Int × Int) :=
  saved.foldl
    (fun m it => if it.ItemId > 0 then goIntMapSet m it.ItemId it.Quantity else m)
    []

/-- `restoreShopQuantities` (`internal/economy`): overwrite the quantity of
every current item with a positive id by the saved quantity for that id when
one exists. The in-place slice mutation is embedded as returning the updated
list. -/
def restoreShopQuantities (current saved : List ShopItem) : List ShopItem :=
  let savedMap := savedQuantityMap saved
  current.map (fun it =>
    if it.ItemId > 0 then
      match goIntMapGet savedMap it.ItemId with
      | some savedQty => { it with Quantity := savedQty }
      | none => it
    else it)

/-- Lexicographic comparison of code-point sequences, the order Go's
`sort.Strings` uses (UTF-8 byte order coincides with code-point order). -/
def natListLe : List Nat → List Nat → Bool
  | [], _ => true
  | _ :: _, [] => false
  | a :: as, b :: bs =>
    if a < b then true else if b < a then false else natListLe as bs

/-- Go string comparison `a <= b`, via code points. -/
def stringLeGo (a b : String) : Bool :=
  natListLe (a.data.map Char.toNat) (b.data.map Char.toNat)

/-- One entry of the listener map passed to `RegisterConnectionGatherers`
(`internal/copyover/connections.go`): its name and whether the listener
gatherer can use it (a non-nil `*net.TCPListener` whose `File()` call
succeeds; nil entries, unknown listener types and failed FD duplication all
skip the entry identically). -/
structure ListenerEntry where
  name : String
  usable : Bool
  deriving DecidableEq, Repr

/-- One active connection as the connection gatherer observes it
(connections.go lines 103-191): connection id, logged-in state, bound user,
websocket transport flag, and whether `GetFileDescriptor` yields a file. -/
structure ConnEntry where
  connId : Nat
  loggedIn : Bool
  userId : Int
  isWebsocket : Bool
  fdOk : Bool
  deriving DecidableEq, Repr

/-- The connections that reach the FD-assigning branch of the connection
gatherer: logged in, bound to a user, telnet transport, descriptor
obtained. -/
def connTelnetOk (c : ConnEntry) : Bool :=
  c.loggedIn && !(c.userId = 0) && !c.isWebsocket && c.fdOk

/-- A recorded `ConnectionState` as the gatherer builds it (`fd = none`
embeds the zero/sentinel index of connections that carry no inherited
descriptor). -/
structure ConnectionStateRec where
  connectionID : Nat
  transport : String
  fd : Option Nat
  userID : Int
  deriving DecidableEq, Repr

/-- Accumulator of the listener gatherer loop: recorded listener states, the
extra-files list gathered so far (each file named by a tag), and the next
inherited-FD index. -/
structure ListenerGatherAcc where
  states : List (String × Nat)
  extraFiles : List String
  fdIndex : Nat
  deriving DecidableEq, Repr

/-- The loop body of the listener gatherer (connections.go lines 45-79): a
usable listener is recorded at the current FD index, its duplicated file is
appended to the extra-files list and the index advances; anything else is
skipped without advancing. -/
def gatherListenerStep (acc : ListenerGatherAcc) (p : ListenerEntry) :
    ListenerGatherAcc :=
  if p.usable then
    { states := acc.states ++ [(p.name, acc.fdIndex)],
      extraFiles := acc.extraFiles ++ ["listener-" ++ p.name],
      fdIndex := acc.fdIndex + 1 }
  else acc

/-- Name order on listener entries, the sort key of `sort.Strings` in the
listener gatherer. -/
def listenerNameLe (a b : ListenerEntry) : Prop :=
  stringLeGo a.name b.name = true

instance : DecidableRel listenerNameLe := fun a b => by
  unfold listenerNameLe; infer_instance

instance : IsTotal ListenerEntry listenerNameLe := by
  constructor
  intro a b
  unfold listenerNameLe stringLeGo
  generalize a.name.data.map Char.toNat = as
  generalize b.name.data.map Char.toNat = bs
  induction as generalizing bs with
  | nil => left; rfl
  | cons x xs ih =>
    cases bs with
    | nil => right; rfl
    | cons y ys =>
      by_cases hxy : x < y
      · left; simp [natListLe, hxy]
      · by_cases hyx : y < x
        · right; simp [natListLe, hyx, hxy]
        · have hx : x = y := by omega
          subst hx
          rcases ih ys with h | h
          · left; simpa [natListLe] using h
          · right; simpa [natListLe] using h

instance : IsTrans ListenerEntry listenerNameLe := by
  constructor
  intro a b c
  unfold listenerNameLe stringLeGo
  generalize a.name.data.map Char.toNat = as
  generalize b.name.data.map Char.toNat = bs
  generalize c.name.data.map Char.toNat = cs
  induction as generalizing bs cs with
  | nil => intro _ _; rfl
  | cons x xs ih =>
    cases bs with
    | nil => intro h; simp [natListLe] at h
    | cons y ys =>
      cases cs with
      | nil => intro _ h; simp [natListLe] at h
      | cons z zs =>
        intro h1 h2
        simp only [natListLe] at h1 h2 ⊢
        rcases Nat.lt_trichotomy x y with hxy | hxy | hxy
        · rcases Nat.lt_trichotomy y z with hyz | hyz | hyz
          · simp [show x < z by omega]
          · simp [show x < z by omega]
          · rw [if_neg (by omega), if_pos hyz] at h2
            exact absurd h2 (by simp)
        · subst hxy
          rw [if_neg (by omega), if_neg (by omega)] at h1
          rcases Nat.lt_trichotomy x z with hxz | hxz | hxz
          · simp [hxz]
          · subst hxz
            rw [if_neg (by omega), if_neg (by omega)] at h2 ⊢
            exact ih ys zs h1 h2
          · rw [if_neg (by omega), if_pos hxz] at h2
            exact absurd h2 (by simp)
        · rw [if_neg (by omega), if_pos hxy] at h1
          exact absurd h1 (by simp)

/-- The listener state gatherer (connections.go lines 26-100): sort the
listener names ascending (`sort.Strings`), then walk them from FD index 3.
Returns the recorded listener states and the files appended to the
manager's extra-files list. -/
def gatherListenerStates (listeners : List ListenerEntry) :
    List (String × Nat) × List String :=
  let sorted := listeners.insertionSort listenerNameLe
  let r := sorted.foldl gatherListenerStep { states := [], extraFiles := [], fdIndex := 3 }
  (r.states, r.extraFiles)

/-- Accumulator of the connection gatherer loop. -/
structure ConnGatherAcc where
  states : List ConnectionStateRec
  extraFiles : List String
  fdIndex : Nat
  deriving DecidableEq, Repr

/-- The loop body of the connection gatherer (connections.go lines 108-177):
skip connections that are not logged in or carry no user; websocket
connections are recorded without an FD index and without an extra file; a
telnet connection whose descriptor cannot be obtained is skipped entirely;
otherwise the connection is recorded at the current FD index, its file is
appended and the index advances. -/
def gatherConnStep (acc : ConnGatherAcc) (c : ConnEntry) : ConnGatherAcc :=
  if ¬ c.loggedIn then acc
  else if c.userId = 0 then acc
  else if c.isWebsocket then
    { acc with states := acc.states ++
        [{ connectionID := c.connId, transport := "websocket", fd := none,
           userID := c.userId }] }
  else if ¬ c.fdOk then acc
  else
    { states := acc.states ++
        [{ connectionID := c.connId, transport := "telnet",
           fd := some acc.fdIndex, userID := c.userId }],
      extraFiles := acc.extraFiles ++ ["conn-" ++ toString c.connId],
      fdIndex := acc.fdIndex + 1 }

/-- The connection state gatherer (connections.go lines 103-191): walk the
active connections in gather order starting at FD index `3 + len(listeners)`
(the length of the listener map passed at registration). -/
def gatherConnectionStates (conns : List ConnEntry) (numListeners : Nat) :
    List ConnectionStateRec × List String :=
  let r := conns.foldl gatherConnStep
    { states := [], extraFiles := [], fdIndex := 3 + numListeners }
  (r.states, r.extraFiles)

/-- Both gatherers registered by `RegisterConnectionGatherers`, run in
registration order over the same manager: listener states first, then
connection states, with the extra-files list shared. -/
def copyoverGather (listeners : List ListenerEntry) (conns : List ConnEntry) :
    (List (String × Nat) × List ConnectionStateRec) × List String :=
  let lr := gatherListenerStates listeners
  let cr := gatherConnectionStates conns listeners.length
  ((lr.1, cr.1), lr.2 ++ cr.2)

/-- All inherited-FD indices a gather records, listeners first then
connections, in recording order. -/
def recordedFDs (listeners : List ListenerEntry) (conns : List ConnEntry) :
    List Nat :=
  let g := copyoverGather listeners conns
  g.1.1.map (fun p => p.2) ++ g.1.2.filterMap (fun r => r.fd)

/-- Modelled from the spec: one entry of the global prioritized event queue
(`globalQueue` of `internal/events`, whose heap implementation is outside
the copyover sources). The spec describes a general-purpose queue ordered by
priority with an order counter maintaining FIFO among equal priorities; the
event payload is embedded as its type tag. -/
structure PrioritizedEvent where
  eventType : String
  priority : Int
  order : Nat
  deriving DecidableEq, Repr

/-- Modelled from the spec: the heap's strict ordering, priority first and
the FIFO order counter as tie-break. -/
def eventBefore (a b : PrioritizedEvent) : Bool :=
  if a.priority < b.priority then true
  else if a.priority = b.priority then decide (a.order < b.order)
  else false

/-- Modelled from the spec: one `heap.Pop` on a non-empty queue, written as a
scan that extracts a minimal element under `eventBefore` and returns it with
the remaining queue. -/
def popMinAux (best : PrioritizedEvent) (q : List PrioritizedEvent) :
    PrioritizedEvent × List PrioritizedEvent :=
  match q with
  | [] => (best, [])
  | e :: rest =>
    if eventBefore e best then
      let r := popMinAux e rest
      (r.1, best :: r.2)
    else
      let r := popMinAux best rest
      (r.1, e :: r.2)

/-- The pop-all loop of `GatherEventState` (`internal/events/copyover.go`
lines 49-54): `heap.Pop` until the queue is empty. The source loop runs
exactly the initial queue length many iterations (`tempEvents` is sized by
`globalQueue.Len()`), embedded here as explicit fuel. -/
def heapDrain : Nat → List PrioritizedEvent → List PrioritizedEvent
  | 0, _ => []
  | _, [] => []
  | fuel + 1, h :: t =>
    let r := popMinAux h t
    r.1 :: heapDrain fuel r.2

/-- SerializedEvent (`internal/events/copyover.go` lines 25-30), the payload
attribute map abstracted into the type tag. -/
structure SerializedEvent where
  EventType : String
  Priority : Int
  Order : Nat
  deriving DecidableEq, Repr

/-- `serializeEvent` (`internal/events/copyover.go` lines 111-140): the
reflective field walk always succeeds, so serialization is total. -/
def serializeEvent (pe : PrioritizedEvent) : SerializedEvent :=
  { EventType := pe.eventType, Priority := pe.priority, Order := pe.order }

/-- EventCopyoverState (`internal/events/copyover.go` lines 13-22). -/
structure EventCopyoverState where
  QueuedEvents : List SerializedEvent
  OrderCounter : Nat
  deriving DecidableEq, Repr

/-- `GatherEventState` (`internal/events/copyover.go` lines 35-72): pop every
event off the global queue, serialize each popped event into the gathered
state, push every popped event back. The globals (`globalQueue`,
`orderCounter`) are passed and returned explicitly. -/
def GatherEventState (globalQueue : List PrioritizedEvent) (orderCounter : Nat) :
    EventCopyoverState × List PrioritizedEvent × Nat :=
  let tempEvents := heapDrain globalQueue.length globalQueue
  let state : EventCopyoverState :=
    { QueuedEvents := tempEvents.map serializeEvent, OrderCounter := orderCounter }
  let newQueue := tempEvents.foldl (fun q pe => q ++ [pe]) []
  (state, newQueue, orderCounter)

/-! Theorems. -/

/-- Claim C1: `CanTransitionTo` recognises exactly the transition graph the
specification lists in section 4.4, and `changeState` called with a target
not permitted from the current phase returns an error and leaves the manager
(in particular its current phase) unchanged. -/
theorem claim1_state_machine :
    (∀ s t : CopyoverPhase,
      s.CanTransitionTo t = true ↔ (s, t) ∈ specTransitionEdges) ∧
    (∀ (m : ManagerState) (target : CopyoverPhase),
      m.currentState.CanTransitionTo target = false →
        (changeState m target).2.isSome = true ∧ (changeState m target).1 = m) := by
  constructor
  · decide
  · intro m target h
    simp [changeState, h]

/-- Witness for C1: from `StateIdle` the target `StateExecuting` is not
permitted; `changeState` reports an error and the manager is unchanged. -/
theorem claim1_state_machine_witness :
    (changeState
        { currentState := CopyoverPhase.StateIdle,
          status := { State := CopyoverPhase.StateIdle, BuildProgress := 0,
                      SaveProgress := 0, GatherProgress := 0,
                      RestoreProgress := 0, VetoReasons := [] },
          progress := [], inProgress := false }
        CopyoverPhase.StateExecuting).2.isSome = true ∧
    (changeState
        { currentState := CopyoverPhase.StateIdle,
          status := { State := CopyoverPhase.StateIdle, BuildProgress := 0,
                      SaveProgress := 0, GatherProgress := 0,
                      RestoreProgress := 0, VetoReasons := [] },
          progress := [], inProgress := false }
        CopyoverPhase.StateExecuting).1 =
      { currentState := CopyoverPhase.StateIdle,
        status := { State := CopyoverPhase.StateIdle, BuildProgress := 0,
                    SaveProgress := 0, GatherProgress := 0,
                    RestoreProgress := 0, VetoReasons := [] },
        progress := [], inProgress := false } :=
  claim1_state_machine.2 _ _ (by decide)

/-- Claim C3: on startup the simplified manager enters `StateRecovering`
exactly when the inheritance environment variable is set to "1"; when the
marker is absent but the snapshot file is present the file is removed as a
stale artifact and the manager starts in `StateIdle`. -/
theorem claim3_stale_snapshot_cleanup (envValue : String) (dataFileExists : Bool) :
    ((managerInitState envValue dataFileExists).1 =
        CopyoverStateSimple.StateRecovering ↔ envValue = "1") ∧
    (envValue ≠ "1" → dataFileExists = true →
      (managerInitState envValue dataFileExists).1 = CopyoverStateSimple.StateIdle ∧
      (managerInitState envValue dataFileExists).2 = false) := by
  by_cases h : envValue = "1"
  · subst h
    simp [managerInitState]
  · cases dataFileExists <;> simp [managerInitState, h]

/-- Witness for C3: cold boot with no environment marker and a stale
snapshot file present boots idle and deletes the file. -/
theorem claim3_stale_snapshot_cleanup_witness :
    (managerInitState "" true).1 = CopyoverStateSimple.StateIdle ∧
    (managerInitState "" true).2 = false :=
  (claim3_stale_snapshot_cleanup "" true).2 (by decide) rfl

/-- Claim C6: `saveState` writes the serialized snapshot to the sibling
temporary path and renames it over the well-known path; if serialization or
the temporary write fails it returns an error and the well-known snapshot
path is untouched. -/
theorem claim6_atomic_snapshot_write (marshalResult : Option String)
    (writeOk : Bool) (partialData : Option String) (fs : SnapshotFiles) :
    ((marshalResult = none ∨ writeOk = false) →
      (saveState marshalResult writeOk partialData fs).2.isSome = true ∧
      (saveState marshalResult writeOk partialData fs).1.mainFile = fs.mainFile) ∧
    (∀ data, marshalResult = some data → writeOk = true →
      saveState marshalResult writeOk partialData fs =
        ({ mainFile := some data, tempFile := none }, none)) := by
  constructor
  · intro h
    rcases h with h | h
    · subst h
      cases writeOk <;> simp [saveState]
    · subst h
      cases marshalResult <;> simp [saveState]
  · intro data hm hw
    subst hm
    subst hw
    simp [saveState]

/-- Witness for C6: a failed temporary write leaves the intact snapshot at
the well-known path and reports the error; a successful write installs the
new bytes there. -/
theorem claim6_atomic_snapshot_write_witness :
    ((saveState (some "NEW") false (some "PARTIAL")
        { mainFile := some "OLD", tempFile := none }).2.isSome = true ∧
      (saveState (some "NEW") false (some "PARTIAL")
        { mainFile := some "OLD", tempFile := none }).1.mainFile = some "OLD") ∧
    saveState (some "NEW") true none { mainFile := some "OLD", tempFile := none } =
      ({ mainFile := some "NEW", tempFile := none }, none) :=
  ⟨(claim6_atomic_snapshot_write (some "NEW") false (some "PARTIAL")
      { mainFile := some "OLD", tempFile := none }).1 (Or.inr rfl),
    (claim6_atomic_snapshot_write (some "NEW") true none
      { mainFile := some "OLD", tempFile := none }).2 "NEW" rfl rfl⟩

/-- Claim C8: the operator countdown argument is rejected above 300 seconds,
rejected when negative or unparseable, and a countdown of exactly zero
initiates with the default of ten seconds; anything from 1 to 300 initiates
with that countdown. -/
theorem claim8_countdown_cap (n : Int) :
    copyoverCountdownArg none = CountdownOutcome.invalid ∧
    (300 < n → copyoverCountdownArg (some n) = CountdownOutcome.tooLarge) ∧
    (n < 0 → copyoverCountdownArg (some n) = CountdownOutcome.invalid) ∧
    (n = 0 → copyoverCountdownArg (some n) = CountdownOutcome.initiate 10) ∧
    (0 < n → n ≤ 300 → copyoverCountdownArg (some n) = CountdownOutcome.initiate n) := by
  refine ⟨rfl, ?_, ?_, ?_, ?_⟩ <;>
    (first
      | (intro h
         simp only [copyoverCountdownArg]
         split_ifs <;> first | rfl | (exfalso; omega))
      | (intro h1 h2
         simp only [copyoverCountdownArg]
         split_ifs <;> first | rfl | (exfalso; omega)))

/-- Claim C9: `GetProgress` derives overall progress from the phase exactly
as claimed (0 outside the working phases, quarter-scaled per-phase progress
inside them), `updateProgress` only ever writes clamped values into the
per-phase status fields, and under the clamp bounds the overall result lies
in the stated band for each phase. -/
theorem claim9_progress_bands (s : CopyoverStatus) :
    (∀ p : Int, 0 ≤ clampProgress p ∧ clampProgress p ≤ 100) ∧
    (∀ (m : ManagerState) (phase : String) (p : Int),
      ((updateProgress m phase p).status.BuildProgress = m.status.BuildProgress ∨
        (updateProgress m phase p).status.BuildProgress = clampProgress p) ∧
      ((updateProgress m phase p).status.SaveProgress = m.status.SaveProgress ∨
        (updateProgress m phase p).status.SaveProgress = clampProgress p) ∧
      ((updateProgress m phase p).status.GatherProgress = m.status.GatherProgress ∨
        (updateProgress m phase p).status.GatherProgress = clampProgress p) ∧
      ((updateProgress m phase p).status.RestoreProgress = m.status.RestoreProgress ∨
        (updateProgress m phase p).status.RestoreProgress = clampProgress p)) ∧
    ((s.State = StateIdle ∨ s.State = StateScheduled ∨ s.State = StateAnnouncing ∨
        s.State = StateCancelling ∨ s.State = StateFailed) → s.GetProgress = 0) ∧
    (s.State = StateBuilding →
      s.GetProgress = Int.tdiv s.BuildProgress 4 ∧
      (0 ≤ s.BuildProgress → s.BuildProgress ≤ 100 →
        0 ≤ s.GetProgress ∧ s.GetProgress ≤ 25)) ∧
    (s.State = StateSaving →
      s.GetProgress = 25 + Int.tdiv s.SaveProgress 4 ∧
      (0 ≤ s.SaveProgress → s.SaveProgress ≤ 100 →
        25 ≤ s.GetProgress ∧ s.GetProgress ≤ 50)) ∧
    (s.State = StateGathering →
      s.GetProgress = 50 + Int.tdiv s.GatherProgress 4 ∧
      (0 ≤ s.GatherProgress → s.GatherProgress ≤ 100 →
        50 ≤ s.GetProgress ∧ s.GetProgress ≤ 75)) ∧
    (s.State = StateExecuting → s.GetProgress = 75) ∧
    (s.State = StateRecovering →
      s.GetProgress = 75 + Int.tdiv s.RestoreProgress 4 ∧
      (0 ≤ s.RestoreProgress → s.RestoreProgress ≤ 100 →
        75 ≤ s.GetProgress ∧ s.GetProgress ≤ 100)) := by
  refine ⟨?_, ?_, ?_, ?_, ?_, ?_, ?_, ?_⟩
  · intro p
    simp only [clampProgress]
    split_ifs <;> omega
  · intro m phase p
    cases hm : m.currentState <;> simp [updateProgress, hm]
  · intro h
    rcases h with h | h | h | h | h <;> simp [CopyoverStatus.GetProgress, h]
  · intro h
    refine ⟨by simp [CopyoverStatus.GetProgress, h], ?_⟩
    intro h0 h100
    simp only [CopyoverStatus.GetProgress, h]
    rw [Int.tdiv_eq_ediv h0 (by omega)]
    omega
  · intro h
    refine ⟨by simp [CopyoverStatus.GetProgress, h], ?_⟩
    intro h0 h100
    simp only [CopyoverStatus.GetProgress, h]
    rw [Int.tdiv_eq_ediv h0 (by omega)]
    omega
  · intro h
    refine ⟨by simp [CopyoverStatus.GetProgress, h], ?_⟩
    intro h0 h100
    simp only [CopyoverStatus.GetProgress, h]
    rw [Int.tdiv_eq_ediv h0 (by omega)]
    omega
  · intro h
    simp [CopyoverStatus.GetProgress, h]
  · intro h
    refine ⟨by simp [CopyoverStatus.GetProgress, h], ?_⟩
    intro h0 h100
    simp only [CopyoverStatus.GetProgress, h]
    rw [Int.tdiv_eq_ediv h0 (by omega)]
    omega

/-- Witness for C9: a status in the Saving phase with per-phase progress 100
reports overall progress 50, inside the 25-50 band. -/
theorem claim9_progress_bands_witness :
    CopyoverStatus.GetProgress
        { State := CopyoverPhase.StateSaving, BuildProgress := 0,
          SaveProgress := 100, GatherProgress := 0, RestoreProgress := 0,
          VetoReasons := [] } = 25 + Int.tdiv 100 4 ∧
    (25 ≤ CopyoverStatus.GetProgress
        { State := CopyoverPhase.StateSaving, BuildProgress := 0,
          SaveProgress := 100, GatherProgress := 0, RestoreProgress := 0,
          VetoReasons := [] } ∧
      CopyoverStatus.GetProgress
        { State := CopyoverPhase.StateSaving, BuildProgress := 0,
          SaveProgress := 100, GatherProgress := 0, RestoreProgress := 0,
          VetoReasons := [] } ≤ 50) :=
  ⟨((claim9_progress_bands _).2.2.2.2.1 rfl).1,
    ((claim9_progress_bands _).2.2.2.2.1 rfl).2 (by decide) (by decide)⟩

/-- Helper for C4: closed form of the `CheckModuleVetoes` fold from an
arbitrary accumulator. -/
theorem checkModuleVetoes_foldl (now : Nat) (ps : List ModuleReadiness)
    (b : Bool) (vs : List VetoInfo) :
    ps.foldl
      (fun acc mp =>
        if mp.ready then acc
        else
          let v := stampVeto now mp
          ((if v.vetoType = "hard" then false else acc.1), acc.2 ++ [v]))
      (b, vs) =
    (b && (ps.filterMap
        (fun mp => if mp.ready then none else some (stampVeto now mp))).all
          (fun v => !decide (v.vetoType = "hard")),
      vs ++ ps.filterMap
        (fun mp => if mp.ready then none else some (stampVeto now mp))) := by
  induction ps generalizing b vs with
  | nil => simp
  | cons mp ps ih =>
    simp only [List.foldl_cons, List.filterMap_cons]
    by_cases hr : mp.ready
    · simp only [hr, if_true, ite_true]
      rw [ih]
    · simp only [hr, if_false, ite_false]
      rw [ih]
      by_cases hh : (stampVeto now mp).vetoType = "hard"
      · simp [hh]
      · simp [hh, Bool.and_assoc]

/-- Claim C4: `CheckModuleVetoes` returns the stamped veto record of every
not-ready module, its boolean result is false exactly when some returned
veto is hard (soft vetoes are collected but never block), and
`InitiateCopyover` refuses with an error, before any phase change, whenever
that boolean is false. -/
theorem claim4_module_vetoes (now : Nat) (ps : List ModuleReadiness) :
    ((CheckModuleVetoes now ps).2 =
      ps.filterMap (fun mp => if mp.ready then none else some (stampVeto now mp))) ∧
    ((CheckModuleVetoes now ps).1 = false ↔
      ∃ v ∈ (CheckModuleVetoes now ps).2, v.vetoType = "hard") ∧
    (∀ m : ManagerState, (CheckModuleVetoes now ps).1 = false →
      (initiateCopyoverGate m now ps).2.isSome = true ∧
      (initiateCopyoverGate m now ps).1.currentState = m.currentState) := by
  have hfold := checkModuleVetoes_foldl now ps true []
  refine ⟨?_, ?_, ?_⟩
  · unfold CheckModuleVetoes
    rw [hfold]
    simp
  · unfold CheckModuleVetoes
    rw [hfold]
    simp only [Bool.true_and, List.nil_append]
    rw [List.all_eq_false]
    constructor
    · rintro ⟨v, hv, hp⟩
      exact ⟨v, hv, by simpa using hp⟩
    · rintro ⟨v, hv, hp⟩
      exact ⟨v, hv, by simpa using hp⟩
  · intro m h
    unfold initiateCopyoverGate
    by_cases hc : (m.status.CanCopyover).1 = true
    · simp [hc, h]
    · have hc' : (m.status.CanCopyover).1 = false := by
        revert hc; cases (m.status.CanCopyover).1 <;> simp
      simp [hc']

/-- Witness for C4: one ready module, one not-ready module with a soft veto
and one with a hard veto: both vetoes are returned, readiness is false, and
the initiate gate refuses with the phase unchanged. -/
theorem claim4_module_vetoes_witness :
    (CheckModuleVetoes 9
        [{ name := "auctions", ready := true,
           veto := { Module := "", Reason := "", vetoType := "", Timestamp := 0 } },
         { name := "parties", ready := false,
           veto := { Module := "", Reason := "busy", vetoType := "soft", Timestamp := 0 } },
         { name := "combat", ready := false,
           veto := { Module := "combat", Reason := "fight", vetoType := "hard", Timestamp := 0 } }]).1 = false ∧
    (initiateCopyoverGate
        { currentState := CopyoverPhase.StateIdle,
          status := { State := CopyoverPhase.StateIdle, BuildProgress := 0,
                      SaveProgress := 0, GatherProgress := 0,
                      RestoreProgress := 0, VetoReasons := [] },
          progress := [], inProgress := false } 9
        [{ name := "auctions", ready := true,
           veto := { Module := "", Reason := "", vetoType := "", Timestamp := 0 } },
         { name := "parties", ready := false,
           veto := { Module := "", Reason := "busy", vetoType := "soft", Timestamp := 0 } },
         { name := "combat", ready := false,
           veto := { Module := "combat", Reason := "fight", vetoType := "hard", Timestamp := 0 } }]).2.isSome = true ∧
    (initiateCopyoverGate
        { currentState := CopyoverPhase.StateIdle,
          status := { State := CopyoverPhase.StateIdle, BuildProgress := 0,
                      SaveProgress := 0, GatherProgress := 0,
                      RestoreProgress := 0, VetoReasons := [] },
          progress := [], inProgress := false } 9
        [{ name := "auctions", ready := true,
           veto := { Module := "", Reason := "", vetoType := "", Timestamp := 0 } },
         { name := "parties", ready := false,
           veto := { Module := "", Reason := "busy", vetoType := "soft", Timestamp := 0 } },
         { name := "combat", ready := false,
           veto := { Module := "combat", Reason := "fight", vetoType := "hard", Timestamp := 0 } }]).1.currentState =
      CopyoverPhase.StateIdle :=
  ⟨by decide,
    ((claim4_module_vetoes 9 _).2.2 _ (by decide)).1,
    ((claim4_module_vetoes 9 _).2.2 _ (by decide)).2⟩

/-- Helper for C7: closed form of the `RestoreModuleStates` fold from an
arbitrary accumulator. -/
theorem restoreModuleStates_foldl (mods : List ModuleRestore) (e : Option String)
    (inv : List String) :
    mods.foldl
      (fun acc md =>
        if ¬ md.hasState then acc
        else
          let invoked := acc.2 ++ [md.name]
          match md.restoreErr with
          | some er => ((if acc.1 = none then some er else acc.1), invoked)
          | none => (acc.1, invoked))
      (e, inv) =
    (e.or ((mods.filter (fun md => md.hasState)).filterMap
        (fun md => md.restoreErr)).head?,
      inv ++ (mods.filter (fun md => md.hasState)).map (fun md => md.name)) := by
  induction mods generalizing e inv with
  | nil => simp
  | cons md mods ih =>
    by_cases hs : md.hasState = true
    · cases her : md.restoreErr with
      | none =>
        simp only [List.foldl_cons, List.filter_cons, hs, her, not_true,
          ite_true, ite_false, if_true]
        rw [ih]
        simp [her]
      | some er =>
        simp only [List.foldl_cons, List.filter_cons, hs, her, not_true,
          ite_true, ite_false, if_true]
        rw [ih]
        simp only [List.filterMap_cons, her, List.map_cons, List.head?_cons]
        have hor : ((if e = none then some er else e).or
            ((mods.filter (fun md => md.hasState)).filterMap
              (fun md => md.restoreErr)).head?) = e.or (some er) := by
          cases e <;> rfl
        rw [hor]
        simp [List.append_assoc]
    · simp only [List.foldl_cons, List.filter_cons, hs]
      simp only [Bool.false_eq_true, not_false_iff, ite_true, if_false]
      rw [ih]

/-- Claim C7: `RestoreModuleStates` invokes `RestoreState` on exactly the
registered modules holding gathered state (in registry order, regardless of
earlier failures) and returns the first error among those invocations, or
none when all succeed. -/
theorem claim7_restore_first_error (mods : List ModuleRestore) :
    (RestoreModuleStates mods).2 =
      (mods.filter (fun md => md.hasState)).map (fun md => md.name) ∧
    (RestoreModuleStates mods).1 =
      ((mods.filter (fun md => md.hasState)).filterMap
        (fun md => md.restoreErr)).head? := by
  unfold RestoreModuleStates
  rw [restoreModuleStates_foldl]
  simp

/-- Helper for C10: popping a minimum returns a permutation of the input. -/
theorem popMinAux_perm (b : PrioritizedEvent) (t : List PrioritizedEvent) :
    ((popMinAux b t).1 :: (popMinAux b t).2).Perm (b :: t) := by
  induction t generalizing b with
  | nil => simp [popMinAux]
  | cons e rest ih =>
    simp only [popMinAux]
    by_cases h : eventBefore e b = true
    · simp only [h, ite_true]
      exact (List.Perm.swap b (popMinAux e rest).1 (popMinAux e rest).2).trans
        ((ih e).cons b)
    · simp only [h, ite_false]
      exact (List.Perm.swap e (popMinAux b rest).1 (popMinAux b rest).2).trans
        (((ih b).cons e).trans (List.Perm.swap b e rest))

/-- Helper for C10: with enough fuel, draining the heap yields a permutation
of the queue. -/
theorem heapDrain_perm (fuel : Nat) (q : List PrioritizedEvent)
    (h : q.length ≤ fuel) : (heapDrain fuel q).Perm q := by
  induction fuel generalizing q with
  | zero =>
    cases q with
    | nil => simp [heapDrain]
    | cons hd tl => simp at h
  | succ fuel ih =>
    cases q with
    | nil => simp [heapDrain]
    | cons hd tl =>
      simp only [heapDrain]
      have hlen : (popMinAux hd tl).2.length = tl.length := by
        have hp := (popMinAux_perm hd tl).length_eq
        simp only [List.length_cons] at hp
        omega
      have htl : (popMinAux hd tl).2.length ≤ fuel := by
        rw [hlen]
        simp only [List.length_cons] at h
        omega
      exact ((ih _ htl).cons _).trans (popMinAux_perm hd tl)

/-- Helper for C10: the push-back fold appends the drained events back. -/
theorem foldl_push_append {α : Type} (l acc : List α) :
    l.foldl (fun q pe => q ++ [pe]) acc = acc ++ l := by
  induction l generalizing acc with
  | nil => simp
  | cons x xs ih =>
    simp only [List.foldl_cons]
    rw [ih]
    simp

/-- Claim C10: `GatherEventState` does not mutate the global event queue: the
queue after the call holds exactly the events it held before (as a
multiset, with priorities and order counters intact), the global order
counter is unchanged, and every popped event is recorded in the gathered
state. -/
theorem claim10_gather_event_frame (q : List PrioritizedEvent) (counter : Nat) :
    ((GatherEventState q counter).2.1).Perm q ∧
    (GatherEventState q counter).2.2 = counter ∧
    (GatherEventState q counter).1.OrderCounter = counter ∧
    (GatherEventState q counter).1.QueuedEvents.length = q.length := by
  unfold GatherEventState
  refine ⟨?_, rfl, rfl, ?_⟩
  · simp only [foldl_push_append, List.nil_append]
    exact heapDrain_perm _ _ le_rfl
  · simp [(heapDrain_perm q.length q le_rfl).length_eq]

/-- Helper for C2: reading back the key just written into the Go map. -/
theorem goIntMapGet_set_self (m : List (Int × Int)) (k v : Int) :
    goIntMapGet (goIntMapSet m k v) k = some v := by
  unfold goIntMapGet goIntMapSet
  rw [List.find?_append]
  have h1 : (m.filter (fun p => p.1 ≠ k)).find? (fun p => decide (p.1 = k)) = none := by
    rw [List.find?_eq_none]
    intro x hx
    have hmem := List.of_mem_filter hx
    simp only [decide_not, Bool.not_eq_true', decide_eq_false_iff_not] at hmem
    simp [hmem]
  rw [h1]
  simp

/-- Helper for C2: the filter inside a Go map write does not disturb lookups
of other keys. -/
theorem find?_filter_ne (m : List (Int × Int)) (k k' : Int) (h : k' ≠ k) :
    (m.filter (fun p => p.1 ≠ k)).find? (fun p => decide (p.1 = k')) =
      m.find? (fun p => decide (p.1 = k')) := by
  induction m with
  | nil => rfl
  | cons p m ih =>
    rw [List.filter_cons]
    by_cases hk : p.1 = k
    · rw [if_neg (by simp [hk])]
      rw [List.find?_cons]
      have h2 : (decide (p.1 = k')) = false := by
        simp only [decide_eq_false_iff_not]
        rw [hk]
        exact Ne.symm h
      rw [h2]
      exact ih
    · rw [if_pos (by simp [hk])]
      rw [List.find?_cons, List.find?_cons]
      cases hdec : (decide (p.1 = k')) with
      | true => simp only [hdec]
      | false =>
        simp only [hdec]
        exact ih

/-- Helper for C2: writing one key into the Go map leaves lookups of other
keys unchanged. -/
theorem goIntMapGet_set_other (m : List (Int × Int)) (k v k' : Int)
    (h : k' ≠ k) : goIntMapGet (goIntMapSet m k v) k' = goIntMapGet m k' := by
  unfold goIntMapGet goIntMapSet
  rw [List.find?_append, find?_filter_ne m k k' h]
  have h2 : ([(k, v)].find? (fun p => decide (p.1 = k'))) = none := by
    simp [List.find?_cons, Ne.symm h]
  rw [h2, Option.or_none]

/-- Helper for C2: the lookup a `restoreShopQuantities` map yields is the
quantity of the last saved item with that positive id, falling back to the
initial accumulator. -/
theorem savedQuantityMap_foldl (saved : List ShopItem) (m : List (Int × Int))
    (k : Int) :
    goIntMapGet
      (saved.foldl
        (fun m it => if it.ItemId > 0 then goIntMapSet m it.ItemId it.Quantity else m)
        m) k =
    (match saved.reverse.find?
        (fun it => decide (it.ItemId > 0) && decide (it.ItemId = k)) with
      | some it => some it.Quantity
      | none => goIntMapGet m k) := by
  induction saved generalizing m with
  | nil => simp
  | cons it rest ih =>
    simp only [List.foldl_cons, List.reverse_cons]
    rw [List.find?_append, ih]
    cases hfind : rest.reverse.find?
        (fun it => decide (it.ItemId > 0) && decide (it.ItemId = k)) with
    | some prev => simp [Option.or]
    | none =>
      simp only [Option.none_or]
      by_cases hpos : it.ItemId > 0
      · by_cases hk : it.ItemId = k
        · have hcond : (decide (it.ItemId > 0) && decide (it.ItemId = k)) = true := by
            simp only [Bool.and_eq_true, decide_eq_true_eq]
            exact ⟨hpos, hk⟩
          have hfind1 : [it].find?
              (fun x => decide (x.ItemId > 0) && decide (x.ItemId = k)) = some it := by
            simp only [List.find?_cons, hcond]
          rw [hfind1, if_pos hpos, hk, goIntMapGet_set_self]
        · have hfind1 : [it].find?
              (fun x => decide (x.ItemId > 0) && decide (x.ItemId = k)) = none := by
            rw [List.find?_cons]
            simp [hk]
          rw [hfind1, if_pos hpos,
            goIntMapGet_set_other m it.ItemId it.Quantity k (Ne.symm hk)]
      · have hfind1 : [it].find?
            (fun x => decide (x.ItemId > 0) && decide (x.ItemId = k)) = none := by
          rw [List.find?_cons]
          simp [hpos]
        rw [hfind1, if_neg hpos]

/-- Counterexample for C2 as stated: a shop whose inventory lists the same
positive ItemId twice with different quantities. The saved map keeps only
the last binding, so restoring after gathering overwrites the first slot's
quantity with the second's, and gather-then-restore is not the identity. -/
theorem claim2_counterexample :
    restoreShopQuantities [{ ItemId := 1, Quantity := 5 }, { ItemId := 1, Quantity := 7 }]
        (copyShopItems [{ ItemId := 1, Quantity := 5 }, { ItemId := 1, Quantity := 7 }]) ≠
      [{ ItemId := 1, Quantity := 5 }, { ItemId := 1, Quantity := 7 }] := by
  decide

/-- Claim C2 (amended): when the positive ItemIds in a shop inventory are
pairwise distinct, restoring the copy taken at gather time restores every
item's quantity to its gather-time value: gather followed by restore is the
identity on the shop list. -/
theorem claim2_gather_restore_identity (items : List ShopItem)
    (hnodup : ((items.filter (fun it => it.ItemId > 0)).map
      (fun it => it.ItemId)).Nodup) :
    restoreShopQuantities items (copyShopItems items) = items := by
  simp only [restoreShopQuantities, copyShopItems]
  have hmap : ∀ it ∈ items,
      (if it.ItemId > 0 then
        match goIntMapGet (savedQuantityMap items) it.ItemId with
        | some savedQty => { it with Quantity := savedQty }
        | none => it
      else it) = it := by
    intro it hit
    by_cases hpos : it.ItemId > 0
    · have hget : goIntMapGet (savedQuantityMap items) it.ItemId = some it.Quantity := by
        unfold savedQuantityMap
        rw [savedQuantityMap_foldl]
        cases hfind : items.reverse.find?
            (fun x => decide (x.ItemId > 0) && decide (x.ItemId = it.ItemId)) with
        | none =>
          exfalso
          rw [List.find?_eq_none] at hfind
          have hmemrev : it ∈ items.reverse := List.mem_reverse.mpr hit
          have := hfind it hmemrev
          simp [hpos] at this
        | some x =>
          have hpx := List.find?_some hfind
          have hmx : x ∈ items := List.mem_reverse.mp (List.mem_of_find?_eq_some hfind)
          simp only [Bool.and_eq_true, decide_eq_true_eq] at hpx
          have hxit : x = it := by
            refine List.inj_on_of_nodup_map hnodup ?_ ?_ hpx.2
            · exact List.mem_filter.mpr ⟨hmx, by simp [hpx.1]⟩
            · exact List.mem_filter.mpr ⟨hit, by simp [hpos]⟩
          rw [hxit]
      rw [if_pos hpos, hget]
    · rw [if_neg hpos]
  exact (List.map_congr_left hmap).trans (List.map_id items)

/-- Witness for C2 (amended): a two-item shop with distinct ItemIds
round-trips exactly. -/
theorem claim2_gather_restore_identity_witness :
    restoreShopQuantities [{ ItemId := 1, Quantity := 5 }, { ItemId := 2, Quantity := 7 }]
        (copyShopItems [{ ItemId := 1, Quantity := 5 }, { ItemId := 2, Quantity := 7 }]) =
      [{ ItemId := 1, Quantity := 5 }, { ItemId := 2, Quantity := 7 }] :=
  claim2_gather_restore_identity _ (by decide)

/-- Helper for C5: closed form of the listener gatherer loop when every
entry is usable — names in walk order, FD indices consecutive from the
accumulator's index, one extra file per listener. -/
theorem gatherListener_foldl_all (l : List ListenerEntry) (acc : ListenerGatherAcc)
    (h : ∀ p ∈ l, p.usable = true) :
    (l.foldl gatherListenerStep acc).states.map (fun p => p.2) =
        acc.states.map (fun p => p.2) ++ List.range' acc.fdIndex l.length ∧
    (l.foldl gatherListenerStep acc).states.map (fun p => p.1) =
        acc.states.map (fun p => p.1) ++ l.map (fun p => p.name) ∧
    (l.foldl gatherListenerStep acc).extraFiles =
        acc.extraFiles ++ l.map (fun p => "listener-" ++ p.name) ∧
    (l.foldl gatherListenerStep acc).fdIndex = acc.fdIndex + l.length := by
  induction l generalizing acc with
  | nil => simp
  | cons p l ih =>
    have hp : p.usable = true := h p (by simp)
    have hrest : ∀ q ∈ l, q.usable = true := fun q hq => h q (by simp [hq])
    simp only [List.foldl_cons, gatherListenerStep, hp, ite_true]
    obtain ⟨i1, i2, i3, i4⟩ := ih
      { states := acc.states ++ [(p.name, acc.fdIndex)],
        extraFiles := acc.extraFiles ++ ["listener-" ++ p.name],
        fdIndex := acc.fdIndex + 1 } hrest
    refine ⟨?_, ?_, ?_, ?_⟩
    · rw [i1]
      simp [List.range'_succ, List.append_assoc]
    · rw [i2]
      simp [List.append_assoc]
    · rw [i3]
      simp [List.append_assoc]
    · rw [i4]
      simp
      omega

/-- Helper for C5: every connection record the gatherer appends with the
websocket transport carries no FD index. -/
theorem gatherConn_websocket_no_fd (conns : List ConnEntry) (acc : ConnGatherAcc)
    (hacc : ∀ r ∈ acc.states, r.transport = "websocket" → r.fd = none) :
    ∀ r ∈ (conns.foldl gatherConnStep acc).states,
      r.transport = "websocket" → r.fd = none := by
  induction conns generalizing acc with
  | nil => exact hacc
  | cons c conns ih =>
    simp only [List.foldl_cons]
    apply ih
    intro r hr
    by_cases h1 : c.loggedIn = true
    · by_cases h2 : c.userId = 0
      · rw [show gatherConnStep acc c = acc by simp [gatherConnStep, h1, h2]] at hr
        exact hacc r hr
      · by_cases h3 : c.isWebsocket = true
        · rw [show gatherConnStep acc c =
              { acc with states := acc.states ++
                  [{ connectionID := c.connId, transport := "websocket",
                     fd := none, userID := c.userId }] } by
                simp [gatherConnStep, h1, h2, h3]] at hr
          rcases List.mem_append.mp hr with hl | hl
          · exact hacc r hl
          · simp only [List.mem_singleton] at hl
            subst hl
            intro _
            rfl
        · by_cases h4 : c.fdOk = true
          · rw [show gatherConnStep acc c =
                { states := acc.states ++
                    [{ connectionID := c.connId, transport := "telnet",
                       fd := some acc.fdIndex, userID := c.userId }],
                  extraFiles := acc.extraFiles ++ ["conn-" ++ toString c.connId],
                  fdIndex := acc.fdIndex + 1 } by
                  simp [gatherConnStep, h1, h2, h3, h4]] at hr
            rcases List.mem_append.mp hr with hl | hl
            · exact hacc r hl
            · simp only [List.mem_singleton] at hl
              subst hl
              intro habs
              simp at habs
          · rw [show gatherConnStep acc c = acc by
                simp [gatherConnStep, h1, h2, h3, h4]] at hr
            exact hacc r hr
    · rw [show gatherConnStep acc c = acc by simp [gatherConnStep, h1]] at hr
      exact hacc r hr

/-- Helper for C5: closed form of the connection gatherer loop — the FD
indices recorded are consecutive from the accumulator's index, one per
logged-in telnet connection with an obtainable descriptor, and only those
connections contribute extra files. -/
theorem gatherConn_foldl (conns : List ConnEntry) (acc : ConnGatherAcc) :
    (conns.foldl gatherConnStep acc).states.filterMap (fun r => r.fd) =
        acc.states.filterMap (fun r => r.fd) ++
          List.range' acc.fdIndex (conns.countP connTelnetOk) ∧
    (conns.foldl gatherConnStep acc).extraFiles =
        acc.extraFiles ++ (conns.filter connTelnetOk).map
          (fun c => "conn-" ++ toString c.connId) ∧
    (conns.foldl gatherConnStep acc).fdIndex =
        acc.fdIndex + conns.countP connTelnetOk := by
  induction conns generalizing acc with
  | nil => simp
  | cons c conns ih =>
    simp only [List.foldl_cons]
    by_cases h1 : c.loggedIn = true
    · by_cases h2 : c.userId = 0
      · have hstep : gatherConnStep acc c = acc := by
          simp [gatherConnStep, h1, h2]
        have hok : connTelnetOk c = false := by
          simp [connTelnetOk, h2]
        rw [hstep]
        obtain ⟨i1, i2, i3⟩ := ih acc
        refine ⟨?_, ?_, ?_⟩ <;>
          simp [i1, i2, i3, List.countP_cons, List.filter_cons, hok]
      · by_cases h3 : c.isWebsocket = true
        · have hstep : gatherConnStep acc c =
              { acc with states := acc.states ++
                  [{ connectionID := c.connId, transport := "websocket",
                     fd := none, userID := c.userId }] } := by
            simp [gatherConnStep, h1, h2, h3]
          have hok : connTelnetOk c = false := by
            simp [connTelnetOk, h3]
          rw [hstep]
          obtain ⟨i1, i2, i3⟩ := ih
            { acc with states := acc.states ++
                [{ connectionID := c.connId, transport := "websocket",
                   fd := none, userID := c.userId }] }
          refine ⟨?_, ?_, ?_⟩ <;>
            simp [i1, i2, i3, List.countP_cons, List.filter_cons, hok,
              List.filterMap_append]
        · by_cases h4 : c.fdOk = true
          · have hstep : gatherConnStep acc c =
                { states := acc.states ++
                    [{ connectionID := c.connId, transport := "telnet",
                       fd := some acc.fdIndex, userID := c.userId }],
                  extraFiles := acc.extraFiles ++ ["conn-" ++ toString c.connId],
                  fdIndex := acc.fdIndex + 1 } := by
              simp [gatherConnStep, h1, h2, h3, h4]
            have hok : connTelnetOk c = true := by
              simp [connTelnetOk, h1, h2, h3, h4]
            rw [hstep]
            obtain ⟨i1, i2, i3⟩ := ih
              { states := acc.states ++
                  [{ connectionID := c.connId, transport := "telnet",
                     fd := some acc.fdIndex, userID := c.userId }],
                extraFiles := acc.extraFiles ++ ["conn-" ++ toString c.connId],
                fdIndex := acc.fdIndex + 1 }
            refine ⟨?_, ?_, ?_⟩
            · rw [i1]
              simp [List.countP_cons, hok, List.filterMap_append,
                List.range'_succ, List.append_assoc]
            · rw [i2]
              simp [List.filter_cons, hok, List.append_assoc]
            · rw [i3]
              simp [List.countP_cons, hok]
              omega
          · have hstep : gatherConnStep acc c = acc := by
              simp [gatherConnStep, h1, h2, h3, h4]
            have hok : connTelnetOk c = false := by
              simp [connTelnetOk, h4]
            rw [hstep]
            obtain ⟨i1, i2, i3⟩ := ih acc
            refine ⟨?_, ?_, ?_⟩ <;>
              simp [i1, i2, i3, List.countP_cons, List.filter_cons, hok]
    · have hstep : gatherConnStep acc c = acc := by
        simp [gatherConnStep, h1]
      have hok : connTelnetOk c = false := by
        simp [connTelnetOk, h1]
      rw [hstep]
      obtain ⟨i1, i2, i3⟩ := ih acc
      refine ⟨?_, ?_, ?_⟩ <;>
        simp [i1, i2, i3, List.countP_cons, List.filter_cons, hok]

/-- Counterexample for C5 as stated: a listener map with one usable TCP
listener and one entry the gatherer must skip (nil, non-TCP, or failed FD
duplication). The skipped listener is not recorded and does not advance the
listener FD counter, but the connection gatherer still starts at 3 plus the
full map size, so the recorded FD indices are [3, 5] — not a dense sequence
starting at 3. -/
theorem claim5_counterexample :
    recordedFDs [{ name := "a", usable := true }, { name := "b", usable := false }]
        [{ connId := 1, loggedIn := true, userId := 5, isWebsocket := false, fdOk := true }] =
      [3, 5] ∧
    recordedFDs [{ name := "a", usable := true }, { name := "b", usable := false }]
        [{ connId := 1, loggedIn := true, userId := 5, isWebsocket := false, fdOk := true }] ≠
      List.range' 3
        (recordedFDs [{ name := "a", usable := true }, { name := "b", usable := false }]
          [{ connId := 1, loggedIn := true, userId := 5, isWebsocket := false,
             fdOk := true }]).length := by
  decide

/-- Claim C5 (amended): provided every listener entry is a usable TCP
listener whose FD duplication succeeds, listener records get FD indices 3,
4, ... in ascending sorted name order, connection records continue the
sequence at 3 plus the number of listeners in gather order, the recorded FD
indices form a dense duplicate-free sequence starting at 3 with all
listeners preceding all connections, and websocket connections receive no
FD index and contribute no extra-files entry. -/
theorem claim5_fd_assignment (listeners : List ListenerEntry)
    (conns : List ConnEntry) (husable : ∀ p ∈ listeners, p.usable = true) :
    recordedFDs listeners conns =
      List.range' 3 (listeners.length + conns.countP connTelnetOk) ∧
    (recordedFDs listeners conns).Nodup ∧
    ((copyoverGather listeners conns).1.1.map (fun p => p.2) =
      List.range' 3 listeners.length) ∧
    ((copyoverGather listeners conns).1.2.filterMap (fun r => r.fd) =
      List.range' (3 + listeners.length) (conns.countP connTelnetOk)) ∧
    ((copyoverGather listeners conns).1.1.map (fun p => p.1) =
      (listeners.insertionSort listenerNameLe).map (fun p => p.name)) ∧
    List.Pairwise (fun a b : String => stringLeGo a b = true)
      ((copyoverGather listeners conns).1.1.map (fun p => p.1)) ∧
    (∀ r ∈ (copyoverGather listeners conns).1.2,
      r.transport = "websocket" → r.fd = none) ∧
    ((copyoverGather listeners conns).2 =
      (listeners.insertionSort listenerNameLe).map (fun p => "listener-" ++ p.name) ++
        (conns.filter connTelnetOk).map (fun c => "conn-" ++ toString c.connId)) := by
  have hsortmem : ∀ p ∈ listeners.insertionSort listenerNameLe, p.usable = true :=
    fun p hp => husable p
      ((List.perm_insertionSort listenerNameLe listeners).mem_iff.mp hp)
  have hlen : (listeners.insertionSort listenerNameLe).length = listeners.length :=
    List.length_insertionSort listenerNameLe listeners
  obtain ⟨l1, l2, l3, l4⟩ := gatherListener_foldl_all
    (listeners.insertionSort listenerNameLe)
    { states := [], extraFiles := [], fdIndex := 3 } hsortmem
  obtain ⟨c1, c2, c3⟩ := gatherConn_foldl conns
    { states := [], extraFiles := [], fdIndex := 3 + listeners.length }
  have e1 : (copyoverGather listeners conns).1.1.map (fun p => p.2) =
      List.range' 3 listeners.length := by
    show ((listeners.insertionSort listenerNameLe).foldl gatherListenerStep
        { states := [], extraFiles := [], fdIndex := 3 }).states.map (fun p => p.2) = _
    rw [l1, hlen]
    simp
  have e2 : (copyoverGather listeners conns).1.2.filterMap (fun r => r.fd) =
      List.range' (3 + listeners.length) (conns.countP connTelnetOk) := by
    show (conns.foldl gatherConnStep
        { states := [], extraFiles := [], fdIndex := 3 + listeners.length
          }).states.filterMap (fun r => r.fd) = _
    rw [c1]
    simp
  have e0 : recordedFDs listeners conns =
      List.range' 3 (listeners.length + conns.countP connTelnetOk) := by
    show (copyoverGather listeners conns).1.1.map (fun p => p.2) ++
        (copyoverGather listeners conns).1.2.filterMap (fun r => r.fd) = _
    rw [e1, e2]
    have h := List.range'_append 3 listeners.length (conns.countP connTelnetOk) 1
    simp only [one_mul] at h
    rw [h, Nat.add_comm]
  have e5 : (copyoverGather listeners conns).1.1.map (fun p => p.1) =
      (listeners.insertionSort listenerNameLe).map (fun p => p.name) := by
    show ((listeners.insertionSort listenerNameLe).foldl gatherListenerStep
        { states := [], extraFiles := [], fdIndex := 3 }).states.map (fun p => p.1) = _
    rw [l2]
    simp
  refine ⟨e0, ?_, e1, e2, e5, ?_, ?_, ?_⟩
  · rw [e0]
    exact List.nodup_range' _ _
  · rw [e5]
    exact @List.Pairwise.map String ListenerEntry listenerNameLe
      (listeners.insertionSort listenerNameLe)
      (fun a b : String => stringLeGo a b = true)
      (fun p => p.name) (fun a b hab => hab)
      (List.sorted_insertionSort listenerNameLe listeners)
  · exact gatherConn_websocket_no_fd conns
      { states := [], extraFiles := [], fdIndex := 3 + listeners.length }
      (by simp)
  · show ((listeners.insertionSort listenerNameLe).foldl gatherListenerStep
          { states := [], extraFiles := [], fdIndex := 3 }).extraFiles ++
        (conns.foldl gatherConnStep
          { states := [], extraFiles := [], fdIndex := 3 + listeners.length
            }).extraFiles = _
    rw [l3, c2]
    simp

/-- Witness for C5 (amended): one usable listener, one telnet connection and
one websocket connection: the listener gets FD index 3, the telnet
connection FD index 4, and the websocket connection none. -/
theorem claim5_fd_assignment_witness :
    recordedFDs [{ name := "a", usable := true }]
        [{ connId := 1, loggedIn := true, userId := 5, isWebsocket := false, fdOk := true },
         { connId := 2, loggedIn := true, userId := 6, isWebsocket := true, fdOk := true }] =
      [3, 4] :=
  ((claim5_fd_assignment _ _ (by decide)).1).trans (by decide)

/-- Witness for C8: 301 seconds is rejected as above the maximum, zero
becomes the default ten, and 300 itself is accepted. -/
theorem claim8_countdown_cap_witness :
    copyoverCountdownArg (some 301) = CountdownOutcome.tooLarge ∧
    copyoverCountdownArg (some 0) = CountdownOutcome.initiate 10 ∧
    copyoverCountdownArg (some 300) = CountdownOutcome.initiate 300 :=
  ⟨(claim8_countdown_cap 301).2.1 (by omega),
    (claim8_countdown_cap 0).2.2.2.1 rfl,
    (claim8_countdown_cap 300).2.2.2.2 (by omega) (by omega)⟩

end Willowdale
